import Mathlib

/-!
Shallow embedding of the cryptonite-website core: the favorites store
(`favoritesSlice`), the persisted-favorites loader (`loadPersistedFavorites`),
the real-time reports poller (`fetchAndAppend`), the market-data client
(`fetchMoreInfo` with its cache, throttle, rate-limit lock and retry), and the
AI recommendation prompt formatting (`pct`, `formatMarketData`,
`clampPriceForDisplay`, `formatPriceForDisplay`).

Timestamps are naturals (milliseconds); JS subtraction of timestamps is done in
`ℤ` where the sign can matter.  JS `number` values that can be `NaN` are
modelled by `JSNum`; values coming from parsed JSON are plain `ℚ`.
-/

deriving instance DecidableEq for Except

namespace Cryptonite

/-! ## JS string primitives, modelled character-wise -/

/-- `String.prototype.toUpperCase` (ASCII range), character by character. -/
def jsToUpper (s : String) : String := String.mk (s.data.map Char.toUpper)

/-- `String.prototype.toLowerCase` (ASCII range), character by character. -/
def jsToLower (s : String) : String := String.mk (s.data.map Char.toLower)

/-- `String.prototype.trim`: strip leading and trailing whitespace. -/
def jsTrim (s : String) : String :=
  String.mk (((s.data.dropWhile Char.isWhitespace).reverse.dropWhile
    Char.isWhitespace).reverse)

/-! ## Favorites store (src: favoritesSlice) -/

def MAX_FAVORITES : Nat := 5

/-- `toggleFavorite` reducer: remove when present, else append when under
capacity, else leave unchanged. -/
def toggleFavorite (selectedIds : List String) (coinId : String) : List String :=
  if coinId ∈ selectedIds then
    selectedIds.filter (fun id => id ≠ coinId)
  else if selectedIds.length < MAX_FAVORITES then
    selectedIds ++ [coinId]
  else
    selectedIds

/-- `replaceFavorite` reducer: filter out `removeId`, then append `addId` only
when it is not already a member and the size is under capacity. -/
def replaceFavorite (selectedIds : List String) (removeId addId : String) : List String :=
  let next := selectedIds.filter (fun id => id ≠ removeId)
  if addId ∉ next ∧ next.length < MAX_FAVORITES then next ++ [addId] else next

inductive FavOp where
  | toggle (coinId : String)
  | replace (removeId addId : String)

def applyFavOp (s : List String) : FavOp → List String
  | .toggle c => toggleFavorite s c
  | .replace r a => replaceFavorite s r a

def applyFavOps (s : List String) (ops : List FavOp) : List String :=
  ops.foldl applyFavOp s

/-- The favorites invariant: at most 5 members, no duplicate identifiers. -/
def FavInvariant (s : List String) : Prop :=
  s.length ≤ MAX_FAVORITES ∧ s.Nodup

/-! ## Persisted favorites loader (src: store, loadPersistedFavorites) -/

/-- JSON values, as produced by a successful `JSON.parse`. -/
inductive JsonVal where
  | str (s : String)
  | num (q : ℚ)
  | boolean (b : Bool)
  | null
  | arr (items : List JsonVal)
  | obj (fields : List (String × JsonVal))

/-- The raw persisted slot: `none` when `localStorage.getItem` returns null,
`some (.error ())` when `JSON.parse` throws, `some (.ok v)` otherwise. -/
def PersistedRaw := Option (Except Unit JsonVal)

/-- `loadPersistedFavorites`: keep only entries that are strings
(`typeof item === string`), truncate to the first `MAX_FAVORITES`. -/
def loadPersistedFavorites (raw : PersistedRaw) : List String :=
  match raw with
  | none => []
  | some (.error _) => []
  | some (.ok v) =>
    match v with
    | .arr items =>
      (items.filterMap (fun it =>
        match it with
        | .str s => some s
        | _ => none)).take MAX_FAVORITES
    | _ => []

/-! ## Real-time reports poller (src: Reports, fetchAndAppend) -/

def MAX_DATA_POINTS : Nat := 30

structure Coin where
  id : String
  symbol : String
deriving DecidableEq

/-- Identifier → uppercase symbol used for the batched quote, falling back to
the uppercased identifier when the coin is not loaded. -/
def symbolFor (coins : List Coin) (coinId : String) : String :=
  match coins.find? (fun c => c.id = coinId) with
  | some c => jsToUpper c.symbol
  | none => jsToUpper coinId

/-- One price history point: a time label plus one price entry per favorite. -/
structure PricePoint where
  time : String
  entries : List (String × ℚ)
deriving DecidableEq

/-- The point built on a successful tick: one entry per favorite id, a symbol
missing from the batched response is recorded as price 0. -/
def buildPoint (favoriteIds : List String) (coins : List Coin)
    (pricesBySymbol : List (String × ℚ)) (timeLabel : String) : PricePoint :=
  { time := timeLabel
    entries := favoriteIds.map (fun coinId =>
      (coinId, ((pricesBySymbol.lookup (symbolFor coins coinId)).getD 0))) }

/-- History trimming: `next.slice(-MAX_DATA_POINTS)` keeps the newest points. -/
def trimHistory (next : List PricePoint) : List PricePoint :=
  if next.length > MAX_DATA_POINTS then next.drop (next.length - MAX_DATA_POINTS)
  else next

structure ReportsState where
  priceHistory : List PricePoint
  error : Option String
  loading : Bool
deriving DecidableEq

/-- Outcome of the single batched quote call of one tick. -/
inductive PollResult where
  | success (pricesBySymbol : List (String × ℚ))
  | failure (msg : String)

/-- `fetchAndAppend`: early return on empty favorites; otherwise clear the
error and either append one trimmed point (success) or record the error
leaving the history intact (failure). -/
def fetchAndAppend (st : ReportsState) (favoriteIds : List String)
    (coins : List Coin) (res : PollResult) (timeLabel : String) : ReportsState :=
  if favoriteIds = [] then st
  else
    match res with
    | .success prices =>
      { priceHistory :=
          trimHistory (st.priceHistory ++ [buildPoint favoriteIds coins prices timeLabel])
        error := none
        loading := false }
    | .failure msg =>
      { st with error := some msg, loading := false }

/-- A whole polling run: each tick carries its batched-call outcome and label. -/
def applyTicks (st : ReportsState) (favoriteIds : List String) (coins : List Coin)
    (ticks : List (PollResult × String)) : ReportsState :=
  ticks.foldl (fun s t => fetchAndAppend s favoriteIds coins t.1 t.2) st

/-! ## Market data client (src: api, fetchMoreInfo and the lock machinery) -/

def COIN_CACHE_TTL_MS : Nat := 2 * 60 * 1000
def MORE_INFO_MIN_INTERVAL_MS : Nat := 2000
def LOCK_DURATION_MS : Nat := 10 * 1000
def RETRY_WAIT_MS : Nat := 3000

/-- The three-currency detail result of `fetchMoreInfo`. -/
structure PriceData where
  usd : ℚ
  eur : ℚ
  ils : ℚ
deriving DecidableEq

/-- One sparse per-coin record of a `/simple/price` response. -/
structure SparsePrice where
  usd : Option ℚ
  eur : Option ℚ
  ils : Option ℚ

/-- Network-level outcome of one `/simple/price` attempt: an axios error
(HTTP status when a response arrived, plus the network-error flag), or a
response body — `none` models a null/non-object `response.data`. -/
inductive NetAttempt where
  | axiosErr (status : Option Nat) (network : Bool)
  | response (data : Option (List (String × SparsePrice)))

/-- Errors `fetchMoreInfo` can surface. -/
inductive FetchErr where
  | axios (status : Option Nat) (network : Bool)
  | invalidResponse
  | busy
deriving DecidableEq

/-- `isRetryableError`: axios 429 or a network-level connectivity failure. -/
def isRetryableError : FetchErr → Bool
  | .axios status network => status = some 429 || network
  | _ => false

/-- Module-level mutable state of the market-data client. -/
structure ApiState where
  coinCache : List (String × (PriceData × Nat))
  lastMoreInfoRequestTime : Nat
  isApiLocked : Bool
  lockEndTime : Nat
  lockListeners : Nat
  lockTimeoutPending : Bool
deriving DecidableEq

/-- `setApiLocked` at wall-clock time `now`: engage the lock for
`LOCK_DURATION_MS` and (re)schedule the unlock timeout. -/
def setApiLocked (st : ApiState) (now : Nat) : ApiState :=
  { st with
    isApiLocked := true
    lockEndTime := now + LOCK_DURATION_MS
    lockTimeoutPending := true }

/-- The lock timeout firing: clear the lock and notify every registered
listener; returns the new state and the number of listeners notified. -/
def fireLockTimeout (st : ApiState) : ApiState × Nat :=
  ({ st with isApiLocked := false, lockTimeoutPending := false }, st.lockListeners)

/-- `getMoreInfoLockState` at wall-clock time `now`. -/
def getMoreInfoLockState (st : ApiState) (now : Nat) : Bool × Nat :=
  if st.isApiLocked then (true, max 0 (st.lockEndTime - now)) else (false, 0)

/-- Identifier normalization in `fetchMoreInfo`: trim then lower-case. -/
def normalizeId (coinId : String) : String := jsToLower (jsTrim coinId)

/-- `doRequest`: map the network outcome to data or an error; a missing
per-coin record or missing per-currency field defaults to 0. -/
def doRequest (normalizedId : String) : NetAttempt → Except FetchErr PriceData
  | .axiosErr status network => .error (.axios status network)
  | .response none => .error .invalidResponse
  | .response (some entries) =>
    match entries.lookup normalizedId with
    | some raw => .ok { usd := raw.usd.getD 0, eur := raw.eur.getD 0, ils := raw.ils.getD 0 }
    | none => .ok { usd := 0, eur := 0, ils := 0 }

/-- Result of one `fetchMoreInfo` call: the value or error, the state after
the call, how many network calls were issued, the waits performed (ms, in
order), and the wall-clock completion time (network calls take zero time). -/
structure FetchOutcome where
  result : Except FetchErr PriceData
  state : ApiState
  networkCalls : Nat
  waits : List Nat
  endTime : Nat

/-- The throttle wait before sending, given the elapsed time since the last
detail request (JS arithmetic on possibly negative differences is in ℤ). -/
def throttleWait (st : ApiState) (now : Nat) : Nat :=
  if (now : ℤ) - st.lastMoreInfoRequestTime < MORE_INFO_MIN_INTERVAL_MS then
    ((MORE_INFO_MIN_INTERVAL_MS : ℤ) - ((now : ℤ) - st.lastMoreInfoRequestTime)).toNat
  else 0

/-- The lock step of the retry policy: engage the rate-limit lock exactly when
the original failure was an axios 429 response. -/
def lockOn429 (st1 : ApiState) (t1 : Nat) : FetchErr → ApiState
  | FetchErr.axios (some 429) _ => setApiLocked st1 t1
  | _ => st1

/-- The path of `fetchMoreInfo` past the cache check: lock check, throttle,
request, then the retry policy. -/
def fetchMoreInfoUncached (st : ApiState) (now : Nat) (normalizedId : String)
    (attempts : Nat → NetAttempt) : FetchOutcome :=
  if st.isApiLocked ∧ (now : ℤ) < st.lockEndTime then
    { result := .error .busy, state := st, networkCalls := 0, waits := [], endTime := now }
  else
    let w := throttleWait st now
    let t1 := now + w
    let preWaits := if w > 0 then [w] else []
    let st1 := { st with lastMoreInfoRequestTime := t1 }
    match doRequest normalizedId (attempts 0) with
    | .ok data =>
      { result := .ok data
        state := { st1 with coinCache := (normalizedId, (data, t1)) :: st1.coinCache }
        networkCalls := 1, waits := preWaits, endTime := t1 }
    | .error e =>
      if isRetryableError e then
        let st2 := lockOn429 st1 t1 e
        let t2 := t1 + RETRY_WAIT_MS
        match doRequest normalizedId (attempts 1) with
        | .ok data =>
          { result := .ok data
            state := { st2 with coinCache := (normalizedId, (data, t2)) :: st2.coinCache }
            networkCalls := 2, waits := preWaits ++ [RETRY_WAIT_MS], endTime := t2 }
        | .error e2 =>
          { result := .error e2, state := st2, networkCalls := 2
            waits := preWaits ++ [RETRY_WAIT_MS], endTime := t2 }
      else
        { result := .error e, state := st1, networkCalls := 1
          waits := preWaits, endTime := t1 }

/-- `fetchMoreInfo coinId` called at wall-clock time `now` in state `st`;
`attempts` supplies the network outcome of the first (index 0) and retry
(index 1) attempts. -/
def fetchMoreInfo (st : ApiState) (now : Nat) (coinId : String)
    (attempts : Nat → NetAttempt) : FetchOutcome :=
  let normalizedId := normalizeId coinId
  match st.coinCache.lookup normalizedId with
  | some cached =>
    if (now : ℤ) - cached.2 < COIN_CACHE_TTL_MS then
      { result := .ok cached.1, state := st, networkCalls := 0, waits := [], endTime := now }
    else fetchMoreInfoUncached st now normalizedId attempts
  | none => fetchMoreInfoUncached st now normalizedId attempts

/-- Whether a valid (unexpired at time `now`) cache entry exists for `coinId`. -/
def cacheHit (st : ApiState) (now : Nat) (coinId : String) : Bool :=
  match st.coinCache.lookup (normalizeId coinId) with
  | some cached => (now : ℤ) - cached.2 < COIN_CACHE_TTL_MS
  | none => false

/-! ## Display validation (src: validation) and AI prompt (src: aiService) -/

/-- A JS `number`: either NaN or a numeric value (modelled as a rational). -/
inductive JSNum where
  | nan
  | num (q : ℚ)
deriving DecidableEq

def MAX_PRICE_DISPLAY : ℚ := 100000

/-- `clampPriceForDisplay`: NaN to 0, negatives to 0, cap at
`MAX_PRICE_DISPLAY`. -/
def clampPriceForDisplay : JSNum → ℚ
  | .nan => 0
  | .num q => if q < 0 then 0 else if q > MAX_PRICE_DISPLAY then MAX_PRICE_DISPLAY else q

/-- The two-decimal scaling used by JS number formatting: `x * 100` rounded
half away from zero, computed on the numerator and denominator. -/
def jsRoundTimes100 (x : ℚ) : ℤ :=
  let n := 100 * x.num
  let d := (x.den : ℤ)
  if 0 ≤ n then (2 * n + d).fdiv (2 * d) else -((2 * (-n) + d).fdiv (2 * d))

/-- Render `n < 100` as exactly two decimal digits. -/
def twoDigitString (n : Nat) : String :=
  (if n < 10 then "0" else "") ++ toString n

/-- Thousands grouping on a reversed digit list: a comma after every three
digits. -/
def insertCommasRev : List Char → List Char
  | a :: b :: c :: d :: rest => a :: b :: c :: ',' :: insertCommasRev (d :: rest)
  | cs => cs

/-- Render a natural with en-US thousands separators. -/
def groupThousands (n : Nat) : String :=
  String.mk (insertCommasRev (toString n).data.reverse).reverse

/-- `Number.prototype.toLocaleString` with en-US, minimum 0 and maximum 2
fraction digits: grouped integer part, trailing fraction zeros dropped. -/
def toLocaleStringEnUS (q : ℚ) : String :=
  let scaled := jsRoundTimes100 q
  let sign := if scaled < 0 then "-" else ""
  let n := scaled.natAbs
  let fracPart := n % 100
  let fracStr :=
    if fracPart = 0 then ""
    else if fracPart % 10 = 0 then "." ++ toString (fracPart / 10)
    else "." ++ twoDigitString fracPart
  sign ++ groupThousands (n / 100) ++ fracStr

/-- `formatPriceForDisplay`: clamp, then locale-format. -/
def formatPriceForDisplay (value : JSNum) : String :=
  toLocaleStringEnUS (clampPriceForDisplay value)

/-- `Number.prototype.toFixed(2)`: always exactly two fraction digits. -/
def toFixed2 (q : ℚ) : String :=
  let scaled := jsRoundTimes100 q
  let sign := if scaled < 0 then "-" else ""
  let n := scaled.natAbs
  sign ++ toString (n / 100) ++ "." ++ twoDigitString (n % 100)

/-- `pct`: `N/A` for null/undefined and NaN, otherwise `toFixed(2)` with a
percent sign. -/
def pct : Option JSNum → String
  | none => "N/A"
  | some .nan => "N/A"
  | some (.num q) => toFixed2 q ++ "%"

/-- The market snapshot handed to the AI prompt builder. The percent-change
fields are `number | null | undefined` in the source, the others `number`. -/
structure CoinMarketDataForAi where
  name : String
  symbol : String
  currentPriceUsd : JSNum
  priceChange24h : Option JSNum
  priceChange30d : Option JSNum
  priceChange60d : Option JSNum
  priceChange200d : Option JSNum
  totalVolume : JSNum
  marketCap : JSNum

/-- The `lines` array of `formatMarketData`. -/
def formatMarketDataLines (data : CoinMarketDataForAi) : List String :=
  [ "Coin: " ++ data.name ++ " (" ++ jsToUpper data.symbol ++ ")"
  , "Current price (USD): $" ++ formatPriceForDisplay data.currentPriceUsd
  , "Market cap (USD): $" ++ formatPriceForDisplay data.marketCap
  , "24h volume (USD): $" ++ formatPriceForDisplay data.totalVolume
  , "24h price change: " ++ pct data.priceChange24h
  , "30d price change: " ++ pct data.priceChange30d
  , "60d price change: " ++ pct data.priceChange60d
  , "200d price change: " ++ pct data.priceChange200d ]

/-- `formatMarketData`: the lines joined with newlines. -/
def formatMarketData (data : CoinMarketDataForAi) : String :=
  String.intercalate "\n" (formatMarketDataLines data)

/-- `buildRecommendationPrompt`: fixed instruction text around the data
block. -/
def buildRecommendationPrompt (data : CoinMarketDataForAi) : String :=
  "You are a concise crypto analyst. Based on the following market data:\n\n" ++
    formatMarketData data ++
    "\n\nProvide:\n1. A clear recommendation: either \"Buy\" or \"No Buy\".\n2. One detailed explanatory paragraph (2-4 sentences) justifying your recommendation based on price, market cap, volume, and the 24h, 30d, 60d, and 200d price changes."

/-- A string whose fraction part has exactly two decimal digits. -/
def HasTwoDecimals (s : String) : Prop :=
  ∃ intPart fracPart : String, s = intPart ++ "." ++ fracPart ∧
    fracPart.length = 2 ∧ fracPart.data.all Char.isDigit

/-! ## Helper lemmas -/

lemma toggleFavorite_eq (s : List String) (c : String) :
    toggleFavorite s c =
      if c ∈ s then s.filter (fun id => id ≠ c)
      else if s.length < MAX_FAVORITES then s ++ [c] else s := rfl

lemma replaceFavorite_eq (s : List String) (r a : String) :
    replaceFavorite s r a =
      if a ∉ s.filter (fun id => id ≠ r) ∧ (s.filter (fun id => id ≠ r)).length < MAX_FAVORITES
      then s.filter (fun id => id ≠ r) ++ [a]
      else s.filter (fun id => id ≠ r) := rfl

lemma nodup_append_singleton {s : List String} {c : String} (hnd : s.Nodup) (hmem : c ∉ s) :
    (s ++ [c]).Nodup := by
  simp only [List.nodup_append, List.nodup_cons, List.not_mem_nil, not_false_iff,
    List.nodup_nil, true_and, List.disjoint_singleton]
  exact ⟨hnd, hmem⟩

lemma toggleFavorite_inv {s : List String} (h : FavInvariant s) (c : String) :
    FavInvariant (toggleFavorite s c) := by
  obtain ⟨hlen, hnd⟩ := h
  rw [toggleFavorite_eq]
  by_cases hmem : c ∈ s
  · rw [if_pos hmem]
    exact ⟨le_trans (List.length_filter_le _ _) hlen, hnd.filter _⟩
  · rw [if_neg hmem]
    by_cases hlt : s.length < MAX_FAVORITES
    · rw [if_pos hlt]
      exact ⟨by simpa using hlt, nodup_append_singleton hnd hmem⟩
    · rw [if_neg hlt]
      exact ⟨hlen, hnd⟩

lemma replaceFavorite_inv {s : List String} (h : FavInvariant s) (r a : String) :
    FavInvariant (replaceFavorite s r a) := by
  obtain ⟨hlen, hnd⟩ := h
  rw [replaceFavorite_eq]
  by_cases hc : a ∉ s.filter (fun id => id ≠ r) ∧
      (s.filter (fun id => id ≠ r)).length < MAX_FAVORITES
  · rw [if_pos hc]
    exact ⟨by simpa using hc.2, nodup_append_singleton (hnd.filter _) hc.1⟩
  · rw [if_neg hc]
    exact ⟨le_trans (List.length_filter_le _ _) hlen, hnd.filter _⟩

lemma applyFavOp_inv {s : List String} (h : FavInvariant s) (op : FavOp) :
    FavInvariant (applyFavOp s op) := by
  cases op with
  | toggle c => exact toggleFavorite_inv h c
  | replace r a => exact replaceFavorite_inv h r a

lemma applyFavOps_inv {s : List String} (h : FavInvariant s) (ops : List FavOp) :
    FavInvariant (applyFavOps s ops) := by
  induction ops generalizing s with
  | nil => exact h
  | cons op ops ih => exact ih (applyFavOp_inv h op)

lemma applyFavOp_order (s : List String) (op : FavOp) :
    ∃ kept extra : List String, applyFavOp s op = kept ++ extra ∧
      kept.Sublist s ∧ extra.length ≤ 1 := by
  cases op with
  | toggle c =>
    show ∃ kept extra, toggleFavorite s c = kept ++ extra ∧ _
    rw [toggleFavorite_eq]
    by_cases hmem : c ∈ s
    · rw [if_pos hmem]
      exact ⟨s.filter (fun id => id ≠ c), [], by simp, List.filter_sublist _, by simp⟩
    · rw [if_neg hmem]
      by_cases hlt : s.length < MAX_FAVORITES
      · rw [if_pos hlt]
        exact ⟨s, [c], rfl, List.Sublist.refl s, by simp⟩
      · rw [if_neg hlt]
        exact ⟨s, [], by simp, List.Sublist.refl s, by simp⟩
  | replace r a =>
    show ∃ kept extra, replaceFavorite s r a = kept ++ extra ∧ _
    rw [replaceFavorite_eq]
    by_cases hc : a ∉ s.filter (fun id => id ≠ r) ∧
        (s.filter (fun id => id ≠ r)).length < MAX_FAVORITES
    · rw [if_pos hc]
      exact ⟨s.filter (fun id => id ≠ r), [a], rfl, List.filter_sublist _, by simp⟩
    · rw [if_neg hc]
      exact ⟨s.filter (fun id => id ≠ r), [], by simp, List.filter_sublist _, by simp⟩

lemma filter_ne_of_not_mem {s : List String} {r : String} (h : r ∉ s) :
    s.filter (fun id => id ≠ r) = s := by
  apply List.filter_eq_self.mpr
  intro a ha
  simp only [ne_eq, decide_eq_true_eq]
  intro hEq
  exact h (hEq ▸ ha)

lemma trimHistory_eq_rtake (l : List PricePoint) :
    trimHistory l = l.rtake MAX_DATA_POINTS := by
  unfold trimHistory List.rtake
  by_cases h : l.length > MAX_DATA_POINTS
  · rw [if_pos h]
  · rw [if_neg h]
    have h0 : l.length - MAX_DATA_POINTS = 0 := by omega
    rw [h0, List.drop_zero]

lemma length_rtake_le {α : Type} (l : List α) (k : Nat) : (l.rtake k).length ≤ k := by
  unfold List.rtake
  rw [List.length_drop]
  omega

lemma rtake_eq_self {α : Type} {l : List α} {k : Nat} (h : l.length ≤ k) :
    l.rtake k = l := by
  unfold List.rtake
  have h0 : l.length - k = 0 := by omega
  rw [h0, List.drop_zero]

lemma rtake_append_rtake {α : Type} (k : Nat) (l m : List α) :
    (l.rtake k ++ m).rtake k = (l ++ m).rtake k := by
  simp only [List.rtake_eq_reverse_take_reverse, List.reverse_append, List.reverse_reverse,
    List.take_append_eq_append_take, List.take_take]
  rw [Nat.min_eq_left (Nat.sub_le _ _)]

lemma rtake_eq_drop {α : Type} (l : List α) (k : Nat) :
    l.rtake k = l.drop (l.length - k) := rfl

/-- History evolution over a run of successful ticks: the stored history is
the last `MAX_DATA_POINTS` of the initial history followed by one point per
tick. -/
lemma applyTicks_success_history (fav : List String) (coins : List Coin)
    (hfav : fav ≠ []) :
    ∀ (ticks : List (List (String × ℚ) × String)) (st : ReportsState),
      st.priceHistory.length ≤ MAX_DATA_POINTS →
      (applyTicks st fav coins
          (ticks.map (fun t => (PollResult.success t.1, t.2)))).priceHistory =
        (st.priceHistory ++
          ticks.map (fun t => buildPoint fav coins t.1 t.2)).rtake MAX_DATA_POINTS := by
  intro ticks
  induction ticks with
  | nil =>
    intro st hlen
    simp only [List.map_nil, applyTicks, List.foldl_nil, List.append_nil]
    exact (rtake_eq_self hlen).symm
  | cons t ts ih =>
    intro st hlen
    have hstep : fetchAndAppend st fav coins (PollResult.success t.1) t.2 =
        { priceHistory := trimHistory (st.priceHistory ++ [buildPoint fav coins t.1 t.2])
          error := none, loading := false } := by
      unfold fetchAndAppend
      rw [if_neg hfav]
    simp only [List.map_cons, applyTicks, List.foldl_cons]
    show (applyTicks (fetchAndAppend st fav coins (PollResult.success t.1) t.2) fav coins
        (ts.map (fun t => (PollResult.success t.1, t.2)))).priceHistory = _
    rw [hstep]
    have hlen2 : (trimHistory (st.priceHistory ++ [buildPoint fav coins t.1 t.2])).length ≤
        MAX_DATA_POINTS := by
      rw [trimHistory_eq_rtake]
      exact length_rtake_le _ _
    rw [ih _ hlen2]
    simp only [trimHistory_eq_rtake]
    rw [rtake_append_rtake]
    simp

lemma replaceFavorite_nodup {s : List String} (hnd : s.Nodup) (r a : String) :
    (replaceFavorite s r a).Nodup := by
  rw [replaceFavorite_eq]
  by_cases hc : a ∉ s.filter (fun id => id ≠ r) ∧
      (s.filter (fun id => id ≠ r)).length < MAX_FAVORITES
  · rw [if_pos hc]
    exact nodup_append_singleton (hnd.filter _) hc.1
  · rw [if_neg hc]
    exact hnd.filter _

lemma lockOn429_429 (st1 : ApiState) (t1 : Nat) (b : Bool) :
    lockOn429 st1 t1 (FetchErr.axios (some 429) b) = setApiLocked st1 t1 := rfl

lemma lockOn429_not429 {e : FetchErr} (st1 : ApiState) (t1 : Nat)
    (h : ∀ b, e ≠ FetchErr.axios (some 429) b) : lockOn429 st1 t1 e = st1 := by
  unfold lockOn429
  split
  · rename_i b
    exact absurd rfl (h b)
  · rfl

lemma fetchMoreInfo_cache_miss {st : ApiState} {now : Nat} {coinId : String}
    (attempts : Nat → NetAttempt) (h : cacheHit st now coinId = false) :
    fetchMoreInfo st now coinId attempts =
      fetchMoreInfoUncached st now (normalizeId coinId) attempts := by
  unfold fetchMoreInfo
  unfold cacheHit at h
  cases hl : st.coinCache.lookup (normalizeId coinId) with
  | none => simp only [hl]
  | some cached =>
    rw [hl] at h
    simp only [decide_eq_false_iff_not] at h
    simp only [hl]
    rw [if_neg h]

lemma fetchMoreInfo_cache_hit {st : ApiState} {now : Nat} {coinId : String}
    (attempts : Nat → NetAttempt) {cached : PriceData × Nat}
    (hl : st.coinCache.lookup (normalizeId coinId) = some cached)
    (hfresh : (now : ℤ) - cached.2 < COIN_CACHE_TTL_MS) :
    fetchMoreInfo st now coinId attempts =
      { result := .ok cached.1, state := st, networkCalls := 0, waits := []
        endTime := now } := by
  unfold fetchMoreInfo
  simp only [hl]
  rw [if_pos hfresh]

lemma fetchMoreInfoUncached_locked {st : ApiState} {now : Nat} (nid : String)
    (attempts : Nat → NetAttempt) (h1 : st.isApiLocked = true)
    (h2 : (now : ℤ) < st.lockEndTime) :
    fetchMoreInfoUncached st now nid attempts =
      { result := .error .busy, state := st, networkCalls := 0, waits := []
        endTime := now } := by
  unfold fetchMoreInfoUncached
  rw [if_pos ⟨h1, h2⟩]

lemma fetchMoreInfoUncached_ok {st : ApiState} {now : Nat} {nid : String}
    {attempts : Nat → NetAttempt} {d : PriceData}
    (h : ¬(st.isApiLocked = true ∧ (now : ℤ) < st.lockEndTime))
    (hd : doRequest nid (attempts 0) = .ok d) :
    fetchMoreInfoUncached st now nid attempts =
      { result := .ok d
        state :=
          { st with
            lastMoreInfoRequestTime := now + throttleWait st now
            coinCache := (nid, (d, now + throttleWait st now)) :: st.coinCache }
        networkCalls := 1
        waits := if throttleWait st now > 0 then [throttleWait st now] else []
        endTime := now + throttleWait st now } := by
  unfold fetchMoreInfoUncached
  rw [if_neg h]
  simp only [hd]

lemma fetchMoreInfoUncached_err_nonretry {st : ApiState} {now : Nat} {nid : String}
    {attempts : Nat → NetAttempt} {e : FetchErr}
    (h : ¬(st.isApiLocked = true ∧ (now : ℤ) < st.lockEndTime))
    (hd : doRequest nid (attempts 0) = .error e) (hr : isRetryableError e = false) :
    fetchMoreInfoUncached st now nid attempts =
      { result := .error e
        state := { st with lastMoreInfoRequestTime := now + throttleWait st now }
        networkCalls := 1
        waits := if throttleWait st now > 0 then [throttleWait st now] else []
        endTime := now + throttleWait st now } := by
  unfold fetchMoreInfoUncached
  rw [if_neg h]
  simp only [hd, hr]
  rw [if_neg (by simp [hr])]

lemma fetchMoreInfoUncached_err_retry_ok {st : ApiState} {now : Nat} {nid : String}
    {attempts : Nat → NetAttempt} {e : FetchErr} {d : PriceData}
    (h : ¬(st.isApiLocked = true ∧ (now : ℤ) < st.lockEndTime))
    (hd : doRequest nid (attempts 0) = .error e) (hr : isRetryableError e = true)
    (hd2 : doRequest nid (attempts 1) = .ok d) :
    fetchMoreInfoUncached st now nid attempts =
      { result := .ok d
        state :=
          { lockOn429 { st with lastMoreInfoRequestTime := now + throttleWait st now }
              (now + throttleWait st now) e with
            coinCache :=
              (nid, (d, now + throttleWait st now + RETRY_WAIT_MS)) ::
                (lockOn429 { st with lastMoreInfoRequestTime := now + throttleWait st now }
                  (now + throttleWait st now) e).coinCache }
        networkCalls := 2
        waits := (if throttleWait st now > 0 then [throttleWait st now] else []) ++
          [RETRY_WAIT_MS]
        endTime := now + throttleWait st now + RETRY_WAIT_MS } := by
  unfold fetchMoreInfoUncached
  rw [if_neg h]
  simp only [hd, hr, if_true, hd2]

lemma fetchMoreInfoUncached_err_retry_err {st : ApiState} {now : Nat} {nid : String}
    {attempts : Nat → NetAttempt} {e e2 : FetchErr}
    (h : ¬(st.isApiLocked = true ∧ (now : ℤ) < st.lockEndTime))
    (hd : doRequest nid (attempts 0) = .error e) (hr : isRetryableError e = true)
    (hd2 : doRequest nid (attempts 1) = .error e2) :
    fetchMoreInfoUncached st now nid attempts =
      { result := .error e2
        state := lockOn429 { st with lastMoreInfoRequestTime := now + throttleWait st now }
          (now + throttleWait st now) e
        networkCalls := 2
        waits := (if throttleWait st now > 0 then [throttleWait st now] else []) ++
          [RETRY_WAIT_MS]
        endTime := now + throttleWait st now + RETRY_WAIT_MS } := by
  unfold fetchMoreInfoUncached
  rw [if_neg h]
  simp only [hd, hr, if_true, hd2]

lemma fetchMoreInfoUncached_calls_pos {st : ApiState} {now : Nat} (nid : String)
    (attempts : Nat → NetAttempt)
    (h : ¬(st.isApiLocked = true ∧ (now : ℤ) < st.lockEndTime)) :
    1 ≤ (fetchMoreInfoUncached st now nid attempts).networkCalls := by
  cases hd : doRequest nid (attempts 0) with
  | ok d => rw [fetchMoreInfoUncached_ok h hd]
  | error e =>
    cases hr : isRetryableError e with
    | false => rw [fetchMoreInfoUncached_err_nonretry h hd hr]
    | true =>
      cases hd2 : doRequest nid (attempts 1) with
      | ok d => rw [fetchMoreInfoUncached_err_retry_ok h hd hr hd2]; exact one_le_two
      | error e2 => rw [fetchMoreInfoUncached_err_retry_err h hd hr hd2]; exact one_le_two

/-! ## Claim theorems -/

/-- C1: from any state satisfying the favorites invariant, every sequence of
`toggleFavorite`/`replaceFavorite` operations keeps the list at size at most 5
with no duplicate identifiers, and each single operation turns its input into
an order-preserving subsequence of the input (the surviving members, in their
original insertion order) followed by at most one newly appended member. -/
theorem favorites_invariant_under_ops (s : List String) (hInv : FavInvariant s)
    (ops : List FavOp) :
    FavInvariant (applyFavOps s ops) ∧
    ∀ (s₀ : List String) (op : FavOp), ∃ kept extra : List String,
      applyFavOp s₀ op = kept ++ extra ∧ kept.Sublist s₀ ∧ extra.length ≤ 1 :=
  ⟨applyFavOps_inv hInv ops, fun s₀ op => applyFavOp_order s₀ op⟩

/-- Witness for C1 at a concrete state and operation sequence. -/
theorem favorites_invariant_under_ops_witness :
    FavInvariant ["btc", "eth"] ∧
      (FavInvariant (applyFavOps ["btc", "eth"]
          [FavOp.toggle "sol", FavOp.replace "btc" "doge", FavOp.toggle "sol"]) ∧
        ∀ (s₀ : List String) (op : FavOp), ∃ kept extra : List String,
          applyFavOp s₀ op = kept ++ extra ∧ kept.Sublist s₀ ∧ extra.length ≤ 1) :=
  ⟨⟨by decide, by decide⟩,
    favorites_invariant_under_ops ["btc", "eth"] ⟨by decide, by decide⟩
      [FavOp.toggle "sol", FavOp.replace "btc" "doge", FavOp.toggle "sol"]⟩

/-- C7: `replaceFavorite` removes `removeId` when present (a no-op removal
when absent), then appends `addId` exactly when it is not already a member of
the filtered list and that list is under capacity; it never introduces a
duplicate, and when `removeId` is absent and the list is already at size 5 the
list is unchanged. -/
theorem replaceFavorite_spec :
    (∀ (s : List String) (r a : String), r ∉ s →
        replaceFavorite s r a =
          if a ∉ s ∧ s.length < MAX_FAVORITES then s ++ [a] else s) ∧
    (∀ (s : List String) (r a : String), s.Nodup → (replaceFavorite s r a).Nodup) ∧
    (∀ (s : List String) (r a : String), r ∉ s → s.length = MAX_FAVORITES →
        replaceFavorite s r a = s) ∧
    (∀ (s : List String) (r a : String),
        (¬(a ∉ s.filter (fun id => id ≠ r) ∧
            (s.filter (fun id => id ≠ r)).length < MAX_FAVORITES) →
          replaceFavorite s r a = s.filter (fun id => id ≠ r)) ∧
        (a ∉ s.filter (fun id => id ≠ r) →
          (s.filter (fun id => id ≠ r)).length < MAX_FAVORITES →
          replaceFavorite s r a = s.filter (fun id => id ≠ r) ++ [a])) := by
  refine ⟨?_, ?_, ?_, ?_⟩
  · intro s r a hr
    rw [replaceFavorite_eq, filter_ne_of_not_mem hr]
  · intro s r a hnd
    exact replaceFavorite_nodup hnd r a
  · intro s r a hr hlen
    rw [replaceFavorite_eq, filter_ne_of_not_mem hr, if_neg]
    intro hc
    omega
  · intro s r a
    constructor
    · intro hc
      rw [replaceFavorite_eq, if_neg hc]
    · intro h1 h2
      rw [replaceFavorite_eq, if_pos ⟨h1, h2⟩]

/-- Witness for C7: replacing an absent identifier in a full list changes
nothing. -/
theorem replaceFavorite_spec_witness :
    ("xrp" ∉ (["a", "b", "c", "d", "e"] : List String)) ∧
      (["a", "b", "c", "d", "e"] : List String).length = MAX_FAVORITES ∧
      replaceFavorite ["a", "b", "c", "d", "e"] "xrp" "f" = ["a", "b", "c", "d", "e"] :=
  ⟨by decide, by decide,
    replaceFavorite_spec.2.2.1 ["a", "b", "c", "d", "e"] "xrp" "f" (by decide) (by decide)⟩

/-- C6 counterexample: the persisted array `[""]` holds an entry that is not a
non-empty string, yet startup load keeps it instead of discarding it. -/
theorem loadPersistedFavorites_keeps_empty_string :
    loadPersistedFavorites (some (Except.ok (JsonVal.arr [JsonVal.str ""]))) = [""] ∧
      ([""] : List String) ≠ ([] : List String) :=
  ⟨rfl, by decide⟩

/-- C6 (amended): startup load discards entries that are not strings (empty
strings are kept), truncates the remainder to the first 5 in their original
order, and in particular loads `["a","b","c","d","e","f"]` as
`["a","b","c","d","e"]`. -/
theorem loadPersistedFavorites_spec :
    (∀ items : List JsonVal,
        loadPersistedFavorites (some (Except.ok (JsonVal.arr items))) =
          (items.filterMap (fun it => match it with
            | JsonVal.str s => some s
            | _ => none)).take MAX_FAVORITES) ∧
    (∀ raw : PersistedRaw, (loadPersistedFavorites raw).length ≤ MAX_FAVORITES) ∧
    loadPersistedFavorites (some (Except.ok (JsonVal.arr
        [JsonVal.str "a", JsonVal.str "b", JsonVal.str "c", JsonVal.str "d",
          JsonVal.str "e", JsonVal.str "f"]))) = ["a", "b", "c", "d", "e"] := by
  refine ⟨fun items => rfl, ?_, by decide⟩
  intro raw
  match raw with
  | none => simp [loadPersistedFavorites, MAX_FAVORITES]
  | some (.error _) => simp [loadPersistedFavorites, MAX_FAVORITES]
  | some (.ok v) =>
    cases v <;> simp [loadPersistedFavorites, MAX_FAVORITES]

/-- C5: on a successful tick with non-empty favorites exactly one point is
appended and the history is trimmed to its newest `MAX_DATA_POINTS` entries
(oldest dropped first, length never exceeding 30, with 31 successful ticks
from empty yielding exactly 30); on a failed tick the error is recorded and
the history is left unchanged. -/
theorem fetchAndAppend_spec :
    (∀ (st : ReportsState) (fav : List String) (coins : List Coin)
        (prices : List (String × ℚ)) (tl : String), fav ≠ [] →
        (fetchAndAppend st fav coins (PollResult.success prices) tl).priceHistory =
          trimHistory (st.priceHistory ++ [buildPoint fav coins prices tl])) ∧
    (∀ l : List PricePoint, trimHistory l = l.drop (l.length - MAX_DATA_POINTS) ∧
        (l.length ≤ MAX_DATA_POINTS → trimHistory l = l)) ∧
    (∀ (st : ReportsState) (fav : List String) (coins : List Coin)
        (prices : List (String × ℚ)) (tl : String), fav ≠ [] →
        (fetchAndAppend st fav coins (PollResult.success prices) tl).priceHistory.length ≤
          MAX_DATA_POINTS) ∧
    (∀ (st : ReportsState) (fav : List String) (coins : List Coin)
        (msg : String) (tl : String), fav ≠ [] →
        (fetchAndAppend st fav coins (PollResult.failure msg) tl).priceHistory =
            st.priceHistory ∧
          (fetchAndAppend st fav coins (PollResult.failure msg) tl).error = some msg) ∧
    (∀ (fav : List String) (coins : List Coin)
        (ticks : List (List (String × ℚ) × String)), fav ≠ [] → ticks.length = 31 →
        (applyTicks { priceHistory := [], error := none, loading := true } fav coins
            (ticks.map (fun t => (PollResult.success t.1, t.2)))).priceHistory =
          (ticks.map (fun t => buildPoint fav coins t.1 t.2)).drop 1 ∧
        (applyTicks { priceHistory := [], error := none, loading := true } fav coins
            (ticks.map (fun t => (PollResult.success t.1, t.2)))).priceHistory.length = 30) := by
  refine ⟨?_, ?_, ?_, ?_, ?_⟩
  · intro st fav coins prices tl hfav
    unfold fetchAndAppend
    rw [if_neg hfav]
  · intro l
    refine ⟨trimHistory_eq_rtake l, fun hle => ?_⟩
    rw [trimHistory_eq_rtake]
    exact rtake_eq_self hle
  · intro st fav coins prices tl hfav
    unfold fetchAndAppend
    rw [if_neg hfav]
    simp only [trimHistory_eq_rtake]
    exact length_rtake_le _ _
  · intro st fav coins msg tl hfav
    unfold fetchAndAppend
    rw [if_neg hfav]
    exact ⟨rfl, rfl⟩
  · intro fav coins ticks hfav hlen
    have h := applyTicks_success_history fav coins hfav ticks
      { priceHistory := [], error := none, loading := true } (by simp [MAX_DATA_POINTS])
    have hpts : (ticks.map (fun t => buildPoint fav coins t.1 t.2)).length = 31 := by
      rw [List.length_map, hlen]
    constructor
    · rw [h]
      simp only [List.nil_append, rtake_eq_drop, hpts]
      rfl
    · rw [h]
      simp only [List.nil_append, rtake_eq_drop, hpts, List.length_drop]
      rfl

/-- Witness for C5: 31 successful ticks over favorites `["btc"]` from an empty
history leave exactly 30 stored points. -/
theorem fetchAndAppend_spec_witness :
    (["btc"] : List String) ≠ [] ∧
      (List.replicate 31 ([("BTC", (50000 : ℚ))], "t")).length = 31 ∧
      (applyTicks { priceHistory := [], error := none, loading := true } ["btc"] []
          ((List.replicate 31 ([("BTC", (50000 : ℚ))], "t")).map
            (fun t => (PollResult.success t.1, t.2)))).priceHistory.length = 30 :=
  ⟨by decide, by decide,
    (fetchAndAppend_spec.2.2.2.2 ["btc"] []
      (List.replicate 31 ([("BTC", (50000 : ℚ))], "t")) (by decide) (by decide)).2⟩

/-- C10: every point the poller builds has one entry per current favorite
identifier; an identifier whose symbol is missing from the batched response is
recorded with price 0 rather than omitted. -/
theorem buildPoint_covers_favorites (fav : List String) (coins : List Coin)
    (prices : List (String × ℚ)) (tl : String) :
    ((buildPoint fav coins prices tl).entries.map Prod.fst = fav) ∧
    ∀ id : String, id ∈ fav →
      ((id, (prices.lookup (symbolFor coins id)).getD 0) ∈
          (buildPoint fav coins prices tl).entries ∧
        (prices.lookup (symbolFor coins id) = none →
          (id, (0 : ℚ)) ∈ (buildPoint fav coins prices tl).entries)) := by
  constructor
  · show List.map Prod.fst (List.map _ fav) = fav
    rw [List.map_map]
    rw [show (Prod.fst ∘ fun coinId =>
      (coinId, ((prices.lookup (symbolFor coins coinId)).getD 0))) = (id : String → String)
      from rfl]
    exact List.map_id fav
  · intro id hid
    have h1 : (id, (prices.lookup (symbolFor coins id)).getD 0) ∈
        (buildPoint fav coins prices tl).entries := List.mem_map_of_mem _ hid
    refine ⟨h1, fun hnone => ?_⟩
    rw [hnone] at h1
    exact h1

/-- C2 counterexample: with the lock active, a detail fetch served by a valid
cache entry succeeds instead of failing with the busy error, so not every
detail fetch fails while the lock is active. -/
theorem fetchMoreInfo_locked_cache_counterexample :
    ((⟨[("bitcoin", (⟨1, 2, 3⟩, 0))], 0, true, 10000, 1, true⟩ : ApiState).isApiLocked = true ∧
      (5000 : ℤ) < (⟨[("bitcoin", (⟨1, 2, 3⟩, 0))], 0, true, 10000, 1, true⟩ : ApiState).lockEndTime) ∧
    (fetchMoreInfo ⟨[("bitcoin", (⟨1, 2, 3⟩, 0))], 0, true, 10000, 1, true⟩ 5000 "bitcoin"
        (fun _ => NetAttempt.response none)).result = Except.ok ⟨1, 2, 3⟩ ∧
    (fetchMoreInfo ⟨[("bitcoin", (⟨1, 2, 3⟩, 0))], 0, true, 10000, 1, true⟩ 5000 "bitcoin"
        (fun _ => NetAttempt.response none)).result ≠ Except.error FetchErr.busy ∧
    (fetchMoreInfo ⟨[("bitcoin", (⟨1, 2, 3⟩, 0))], 0, true, 10000, 1, true⟩ 5000 "bitcoin"
        (fun _ => NetAttempt.response none)).networkCalls = 0 := by
  have hfetch := @fetchMoreInfo_cache_hit ⟨[("bitcoin", (⟨1, 2, 3⟩, 0))], 0, true, 10000, 1, true⟩
    5000 "bitcoin" (fun _ => NetAttempt.response none)
    (⟨1, 2, 3⟩, 0) (by decide) (by decide)
  rw [hfetch]
  refine ⟨⟨rfl, by decide⟩, rfl, by decide, rfl⟩

/-- C2 (amended): a detail fetch whose first attempt fails with a rate-limit
response engages the global lock until 10 seconds after the request was sent;
while the lock is active, every detail fetch that is not served by a valid
cache entry fails immediately with the busy error, with no network call and no
state change; when the cooldown timeout fires the lock clears and every
registered listener is notified; and once the lock window has passed, a
cache-missing fetch attempts the network again. -/
theorem fetchMoreInfo_lock_spec :
    (∀ (st : ApiState) (now : Nat) (coinId : String) (attempts : Nat → NetAttempt)
        (b : Bool),
        cacheHit st now coinId = false →
        ¬(st.isApiLocked = true ∧ (now : ℤ) < st.lockEndTime) →
        attempts 0 = NetAttempt.axiosErr (some 429) b →
        (fetchMoreInfo st now coinId attempts).state.isApiLocked = true ∧
        (fetchMoreInfo st now coinId attempts).state.lockEndTime =
          now + throttleWait st now + LOCK_DURATION_MS) ∧
    (∀ (st : ApiState) (now : Nat) (coinId : String) (attempts : Nat → NetAttempt),
        cacheHit st now coinId = false →
        st.isApiLocked = true → (now : ℤ) < st.lockEndTime →
        (fetchMoreInfo st now coinId attempts).result = Except.error FetchErr.busy ∧
        (fetchMoreInfo st now coinId attempts).networkCalls = 0 ∧
        (fetchMoreInfo st now coinId attempts).state = st) ∧
    (∀ st : ApiState, (fireLockTimeout st).1.isApiLocked = false ∧
        (fireLockTimeout st).2 = st.lockListeners) ∧
    (∀ (st : ApiState) (now : Nat) (coinId : String) (attempts : Nat → NetAttempt),
        cacheHit st now coinId = false →
        (st.lockEndTime : ℤ) ≤ now →
        1 ≤ (fetchMoreInfo st now coinId attempts).networkCalls) := by
  refine ⟨?_, ?_, ?_, ?_⟩
  · intro st now coinId attempts b hmiss hlock ha
    rw [fetchMoreInfo_cache_miss attempts hmiss]
    have hd : doRequest (normalizeId coinId) (attempts 0) =
        Except.error (FetchErr.axios (some 429) b) := by
      rw [ha]
      rfl
    have hr : isRetryableError (FetchErr.axios (some 429) b) = true := by
      simp [isRetryableError]
    cases hd2 : doRequest (normalizeId coinId) (attempts 1) with
    | ok d =>
      rw [fetchMoreInfoUncached_err_retry_ok hlock hd hr hd2]
      simp [lockOn429_429, setApiLocked]
    | error e2 =>
      rw [fetchMoreInfoUncached_err_retry_err hlock hd hr hd2]
      simp [lockOn429_429, setApiLocked]
  · intro st now coinId attempts hmiss h1 h2
    rw [fetchMoreInfo_cache_miss attempts hmiss,
      fetchMoreInfoUncached_locked (normalizeId coinId) attempts h1 h2]
    exact ⟨rfl, rfl, rfl⟩
  · intro st
    exact ⟨rfl, rfl⟩
  · intro st now coinId attempts hmiss hpast
    rw [fetchMoreInfo_cache_miss attempts hmiss]
    apply fetchMoreInfoUncached_calls_pos
    intro hc
    omega

/-- Witness for C2 at a concrete locked state with an empty cache. -/
theorem fetchMoreInfo_lock_spec_witness :
    cacheHit ⟨[], 0, true, 10000, 0, true⟩ 5000 "bitcoin" = false ∧
      (⟨[], 0, true, 10000, 0, true⟩ : ApiState).isApiLocked = true ∧
      ((5000 : ℤ) < (⟨[], 0, true, 10000, 0, true⟩ : ApiState).lockEndTime) ∧
      (fetchMoreInfo ⟨[], 0, true, 10000, 0, true⟩ 5000 "bitcoin"
          (fun _ => NetAttempt.response none)).result = Except.error FetchErr.busy :=
  ⟨by decide, by decide, by decide,
    (fetchMoreInfo_lock_spec.2.1 ⟨[], 0, true, 10000, 0, true⟩ 5000 "bitcoin"
      (fun _ => NetAttempt.response none) (by decide) (by decide) (by decide)).1⟩

/-- C3: past the cache and lock checks, a first attempt failing with a
retryable error (a rate-limit response or a network connectivity failure)
waits exactly `RETRY_WAIT_MS` (3 s) and retries exactly once, engaging the
rate-limit lock first exactly when the failure was a 429; a successful retry
returns its data to the original caller, a second failure surfaces that
failure, and a non-retryable failure is surfaced immediately after one network
call with no retry wait. -/
theorem fetchMoreInfo_retry_spec :
    ∀ (st : ApiState) (now : Nat) (coinId : String) (attempts : Nat → NetAttempt),
      cacheHit st now coinId = false →
      ¬(st.isApiLocked = true ∧ (now : ℤ) < st.lockEndTime) →
      ∀ e : FetchErr, doRequest (normalizeId coinId) (attempts 0) = Except.error e →
        (isRetryableError e = false →
          (fetchMoreInfo st now coinId attempts).result = Except.error e ∧
          (fetchMoreInfo st now coinId attempts).networkCalls = 1 ∧
          (fetchMoreInfo st now coinId attempts).waits =
            (if throttleWait st now > 0 then [throttleWait st now] else []) ∧
          (fetchMoreInfo st now coinId attempts).endTime = now + throttleWait st now) ∧
        (isRetryableError e = true →
          (fetchMoreInfo st now coinId attempts).networkCalls = 2 ∧
          (fetchMoreInfo st now coinId attempts).waits =
            (if throttleWait st now > 0 then [throttleWait st now] else []) ++
              [RETRY_WAIT_MS] ∧
          (fetchMoreInfo st now coinId attempts).endTime =
            now + throttleWait st now + RETRY_WAIT_MS ∧
          (∀ b : Bool, e = FetchErr.axios (some 429) b →
            (fetchMoreInfo st now coinId attempts).state.isApiLocked = true) ∧
          ((∀ b : Bool, e ≠ FetchErr.axios (some 429) b) →
            (fetchMoreInfo st now coinId attempts).state.isApiLocked = st.isApiLocked) ∧
          (∀ d : PriceData, doRequest (normalizeId coinId) (attempts 1) = Except.ok d →
            (fetchMoreInfo st now coinId attempts).result = Except.ok d) ∧
          (∀ e2 : FetchErr, doRequest (normalizeId coinId) (attempts 1) = Except.error e2 →
            (fetchMoreInfo st now coinId attempts).result = Except.error e2)) := by
  intro st now coinId attempts hmiss hlock e hd
  rw [fetchMoreInfo_cache_miss attempts hmiss]
  constructor
  · intro hr
    rw [fetchMoreInfoUncached_err_nonretry hlock hd hr]
    exact ⟨rfl, rfl, rfl, rfl⟩
  · intro hr
    cases hd2 : doRequest (normalizeId coinId) (attempts 1) with
    | ok d =>
      rw [fetchMoreInfoUncached_err_retry_ok hlock hd hr hd2]
      refine ⟨rfl, rfl, rfl, ?_, ?_, ?_, ?_⟩
      · intro b hb
        subst hb
        simp [lockOn429_429, setApiLocked]
      · intro hne
        simp [lockOn429_not429 _ _ hne]
      · intro d2 hd2b
        injection hd2b with h
        rw [h]
      · intro e2 he2
        exact absurd he2 (fun h => Except.noConfusion h)
    | error e2 =>
      rw [fetchMoreInfoUncached_err_retry_err hlock hd hr hd2]
      refine ⟨rfl, rfl, rfl, ?_, ?_, ?_, ?_⟩
      · intro b hb
        subst hb
        simp [lockOn429_429, setApiLocked]
      · intro hne
        simp [lockOn429_not429 _ _ hne]
      · intro d2 hd2b
        exact absurd hd2b (fun h => Except.noConfusion h)
      · intro e3 he3
        injection he3 with h
        rw [h]

/-- Witness for C3: a network-error first attempt followed by a successful
retry returns the retried data with exactly two network calls. -/
theorem fetchMoreInfo_retry_spec_witness :
    cacheHit ⟨[], 0, false, 0, 0, false⟩ 10000 "bitcoin" = false ∧
      doRequest (normalizeId "bitcoin")
        ((fun n => if n = 0 then NetAttempt.axiosErr none true
          else NetAttempt.response (some [("bitcoin", ⟨some 1, some 2, some 3⟩)])) 0) =
        Except.error (FetchErr.axios none true) ∧
      isRetryableError (FetchErr.axios none true) = true ∧
      (fetchMoreInfo ⟨[], 0, false, 0, 0, false⟩ 10000 "bitcoin"
          (fun n => if n = 0 then NetAttempt.axiosErr none true
            else NetAttempt.response (some [("bitcoin", ⟨some 1, some 2, some 3⟩)]))).result =
        Except.ok ⟨1, 2, 3⟩ ∧
      (fetchMoreInfo ⟨[], 0, false, 0, 0, false⟩ 10000 "bitcoin"
          (fun n => if n = 0 then NetAttempt.axiosErr none true
            else NetAttempt.response (some [("bitcoin", ⟨some 1, some 2, some 3⟩)]))).networkCalls = 2 := by
  have h := fetchMoreInfo_retry_spec ⟨[], 0, false, 0, 0, false⟩ 10000 "bitcoin"
    (fun n => if n = 0 then NetAttempt.axiosErr none true
      else NetAttempt.response (some [("bitcoin", ⟨some 1, some 2, some 3⟩)]))
    (by decide) (by decide) (FetchErr.axios none true) (by decide)
  have h2 := h.2 (by decide)
  exact ⟨by decide, by decide, by decide, h2.2.2.2.2.2.1 ⟨1, 2, 3⟩ (by decide), h2.1⟩

/-- C4: a fetch finding a valid (unexpired) cache entry under the normalized
identifier returns it with no network call and no state change; after a
cache-missing fetch whose first attempt succeeds, any fetch whose identifier
normalizes to the same string within the 2-minute TTL of that success returns
the cached data with zero further network calls (one call in total); and an
expired entry is treated as absent — the next fetch issues a network call. -/
theorem fetchMoreInfo_cache_spec :
    (∀ (st : ApiState) (now : Nat) (coinId : String) (attempts : Nat → NetAttempt)
        (cached : PriceData × Nat),
        st.coinCache.lookup (normalizeId coinId) = some cached →
        (now : ℤ) - cached.2 < COIN_CACHE_TTL_MS →
        (fetchMoreInfo st now coinId attempts).result = Except.ok cached.1 ∧
        (fetchMoreInfo st now coinId attempts).networkCalls = 0 ∧
        (fetchMoreInfo st now coinId attempts).state = st) ∧
    (∀ (st : ApiState) (now1 now2 : Nat) (id1 id2 : String)
        (att1 att2 : Nat → NetAttempt) (d : PriceData),
        normalizeId id1 = normalizeId id2 →
        cacheHit st now1 id1 = false →
        ¬(st.isApiLocked = true ∧ (now1 : ℤ) < st.lockEndTime) →
        doRequest (normalizeId id1) (att1 0) = Except.ok d →
        (now2 : ℤ) - (fetchMoreInfo st now1 id1 att1).endTime < COIN_CACHE_TTL_MS →
        (fetchMoreInfo st now1 id1 att1).networkCalls = 1 ∧
        (fetchMoreInfo st now1 id1 att1).result = Except.ok d ∧
        (fetchMoreInfo (fetchMoreInfo st now1 id1 att1).state now2 id2 att2).result =
          Except.ok d ∧
        (fetchMoreInfo (fetchMoreInfo st now1 id1 att1).state now2 id2 att2).networkCalls = 0) ∧
    (∀ (st : ApiState) (now : Nat) (coinId : String) (attempts : Nat → NetAttempt)
        (cached : PriceData × Nat),
        st.coinCache.lookup (normalizeId coinId) = some cached →
        (COIN_CACHE_TTL_MS : ℤ) ≤ (now : ℤ) - cached.2 →
        ¬(st.isApiLocked = true ∧ (now : ℤ) < st.lockEndTime) →
        1 ≤ (fetchMoreInfo st now coinId attempts).networkCalls) := by
  refine ⟨?_, ?_, ?_⟩
  · intro st now coinId attempts cached hl hfresh
    rw [fetchMoreInfo_cache_hit attempts hl hfresh]
    exact ⟨rfl, rfl, rfl⟩
  · intro st now1 now2 id1 id2 att1 att2 d hnorm hmiss hlock hd hfresh
    have h1 : fetchMoreInfo st now1 id1 att1 =
        { result := .ok d
          state :=
            { st with
              lastMoreInfoRequestTime := now1 + throttleWait st now1
              coinCache :=
                (normalizeId id1, (d, now1 + throttleWait st now1)) :: st.coinCache }
          networkCalls := 1
          waits := if throttleWait st now1 > 0 then [throttleWait st now1] else []
          endTime := now1 + throttleWait st now1 } := by
      rw [fetchMoreInfo_cache_miss att1 hmiss]
      exact fetchMoreInfoUncached_ok hlock hd
    rw [h1] at hfresh ⊢
    have hl2 : ({ st with
        lastMoreInfoRequestTime := now1 + throttleWait st now1
        coinCache :=
          (normalizeId id1, (d, now1 + throttleWait st now1)) :: st.coinCache } :
          ApiState).coinCache.lookup (normalizeId id2) =
        some (d, now1 + throttleWait st now1) := by
      simp [hnorm.symm, List.lookup_cons]
    have h2 := fetchMoreInfo_cache_hit att2 hl2 hfresh
    rw [h2]
    exact ⟨rfl, rfl, rfl, rfl⟩
  · intro st now coinId attempts cached hl hexp hlock
    have hmiss : cacheHit st now coinId = false := by
      unfold cacheHit
      rw [hl]
      simp only [decide_eq_false_iff_not]
      omega
    rw [fetchMoreInfo_cache_miss attempts hmiss]
    exact fetchMoreInfoUncached_calls_pos _ _ hlock

/-- Witness for C4: a successful fetch of `" Bitcoin "` followed 60 seconds
later by a fetch of `"bitcoin"` is served from the cache with one network call
in total. -/
theorem fetchMoreInfo_cache_spec_witness :
    normalizeId " Bitcoin " = normalizeId "bitcoin" ∧
      (fetchMoreInfo ⟨[], 0, false, 0, 0, false⟩ 10000 " Bitcoin "
          (fun _ => NetAttempt.response (some [("bitcoin", ⟨some 7, some 8, some 9⟩)]))).networkCalls = 1 ∧
      (fetchMoreInfo
          (fetchMoreInfo ⟨[], 0, false, 0, 0, false⟩ 10000 " Bitcoin "
            (fun _ => NetAttempt.response (some [("bitcoin", ⟨some 7, some 8, some 9⟩)]))).state
          70000 "bitcoin" (fun _ => NetAttempt.response none)).result = Except.ok ⟨7, 8, 9⟩ ∧
      (fetchMoreInfo
          (fetchMoreInfo ⟨[], 0, false, 0, 0, false⟩ 10000 " Bitcoin "
            (fun _ => NetAttempt.response (some [("bitcoin", ⟨some 7, some 8, some 9⟩)]))).state
          70000 "bitcoin" (fun _ => NetAttempt.response none)).networkCalls = 0 := by
  have h := fetchMoreInfo_cache_spec.2.1 ⟨[], 0, false, 0, 0, false⟩ 10000 70000
    " Bitcoin " "bitcoin"
    (fun _ => NetAttempt.response (some [("bitcoin", ⟨some 7, some 8, some 9⟩)]))
    (fun _ => NetAttempt.response none) ⟨7, 8, 9⟩
    (by decide) (by decide) (by decide) (by decide) (by decide)
  exact ⟨by decide, h.1, h.2.2.1, h.2.2.2⟩

/-- Witness for C10: with favorites `["btc","xrp"]` and a response holding only
`BTC`, the built point records `xrp` with price 0. -/
theorem buildPoint_covers_favorites_witness :
    ("xrp" ∈ (["btc", "xrp"] : List String)) ∧
      ([("BTC", (50000 : ℚ))].lookup (symbolFor [] "xrp") = none) ∧
      ("xrp", (0 : ℚ)) ∈
        (buildPoint ["btc", "xrp"] [] [("BTC", (50000 : ℚ))] "t").entries :=
  ⟨by decide, by decide,
    ((buildPoint_covers_favorites ["btc", "xrp"] [] [("BTC", (50000 : ℚ))] "t").2
      "xrp" (by decide)).2 (by decide)⟩

lemma twoDigitString_spec :
    ∀ m : Nat, m < 100 →
      (twoDigitString m).length = 2 ∧ (twoDigitString m).data.all Char.isDigit = true := by
  decide

lemma hasTwoDecimals_toFixed2 (q : ℚ) : HasTwoDecimals (toFixed2 q) := by
  refine ⟨(if jsRoundTimes100 q < 0 then "-" else "") ++
    toString ((jsRoundTimes100 q).natAbs / 100),
    twoDigitString ((jsRoundTimes100 q).natAbs % 100), rfl, ?_, ?_⟩
  · exact (twoDigitString_spec _ (Nat.mod_lt _ (by norm_num))).1
  · exact (twoDigitString_spec _ (Nat.mod_lt _ (by norm_num))).2

/-- C8: with all four percent-change fields numeric, the prompt's data block
contains the 24h/30d/60d/200d lines literally, each value rendered by
`toFixed(2)` with exactly two decimal digits; a null/undefined change renders
its line as `N/A`; and the data block is exactly these lines joined by
newlines. -/
theorem formatMarketData_pct_spec :
    (∀ (d : CoinMarketDataForAi) (q24 q30 q60 q200 : ℚ),
        d.priceChange24h = some (JSNum.num q24) →
        d.priceChange30d = some (JSNum.num q30) →
        d.priceChange60d = some (JSNum.num q60) →
        d.priceChange200d = some (JSNum.num q200) →
        ("24h price change: " ++ (toFixed2 q24 ++ "%")) ∈ formatMarketDataLines d ∧
        ("30d price change: " ++ (toFixed2 q30 ++ "%")) ∈ formatMarketDataLines d ∧
        ("60d price change: " ++ (toFixed2 q60 ++ "%")) ∈ formatMarketDataLines d ∧
        ("200d price change: " ++ (toFixed2 q200 ++ "%")) ∈ formatMarketDataLines d) ∧
    (∀ q : ℚ, HasTwoDecimals (toFixed2 q)) ∧
    (∀ d : CoinMarketDataForAi,
        (d.priceChange24h = none → ("24h price change: N/A") ∈ formatMarketDataLines d) ∧
        (d.priceChange30d = none → ("30d price change: N/A") ∈ formatMarketDataLines d) ∧
        (d.priceChange60d = none → ("60d price change: N/A") ∈ formatMarketDataLines d) ∧
        (d.priceChange200d = none → ("200d price change: N/A") ∈ formatMarketDataLines d)) ∧
    (∀ d : CoinMarketDataForAi,
        formatMarketData d = String.intercalate "\n" (formatMarketDataLines d)) := by
  refine ⟨?_, hasTwoDecimals_toFixed2, ?_, fun d => rfl⟩
  · intro d q24 q30 q60 q200 h24 h30 h60 h200
    refine ⟨?_, ?_, ?_, ?_⟩ <;>
      simp [formatMarketDataLines, pct, h24, h30, h60, h200]
  · intro d
    refine ⟨?_, ?_, ?_, ?_⟩ <;> intro h <;>
      simp [formatMarketDataLines, pct, h]

/-- Witness for C8: a snapshot whose 24h change is 3.25 yields the literal
line `24h price change: 3.25%`, and a null 30d change yields
`30d price change: N/A`. -/
theorem formatMarketData_pct_spec_witness :
    ("24h price change: 3.25%") ∈ formatMarketDataLines
        ⟨"Bitcoin", "btc", JSNum.num 50000, some (JSNum.num (Rat.divInt 13 4)),
          some (JSNum.num 1), some (JSNum.num 2), some (JSNum.num 3),
          JSNum.num 5, JSNum.num 6⟩ ∧
      ("30d price change: N/A") ∈ formatMarketDataLines
        ⟨"Bitcoin", "btc", JSNum.num 50000, some (JSNum.num (Rat.divInt 13 4)),
          none, some (JSNum.num 2), some (JSNum.num 3),
          JSNum.num 5, JSNum.num 6⟩ := by
  have h1 := (formatMarketData_pct_spec.1
    ⟨"Bitcoin", "btc", JSNum.num 50000, some (JSNum.num (Rat.divInt 13 4)),
      some (JSNum.num 1), some (JSNum.num 2), some (JSNum.num 3),
      JSNum.num 5, JSNum.num 6⟩ (Rat.divInt 13 4) 1 2 3 rfl rfl rfl rfl).1
  have h2 := ((formatMarketData_pct_spec.2.2.1
    ⟨"Bitcoin", "btc", JSNum.num 50000, some (JSNum.num (Rat.divInt 13 4)),
      none, some (JSNum.num 2), some (JSNum.num 3),
      JSNum.num 5, JSNum.num 6⟩).2.1) rfl
  have he : "24h price change: " ++ (toFixed2 (Rat.divInt 13 4) ++ "%") = "24h price change: 3.25%" := by
    decide
  rw [he] at h1
  exact ⟨h1, h2⟩

/-- C9: `formatPriceForDisplay` renders the clamped value — NaN and negative
inputs render as `0`, values above 100,000 render as `100,000` — the clamped
value always lies in `[0, 100000]`, and the prompt's current-price,
market-cap, and 24h-volume lines are all built from `formatPriceForDisplay`,
so every such figure in the prompt is bounded by 100,000 and never negative. -/
theorem formatPriceForDisplay_clamp_spec :
    (∀ v : JSNum, formatPriceForDisplay v = toLocaleStringEnUS (clampPriceForDisplay v)) ∧
    (clampPriceForDisplay JSNum.nan = 0 ∧ formatPriceForDisplay JSNum.nan = "0") ∧
    (∀ q : ℚ, q < 0 →
        clampPriceForDisplay (JSNum.num q) = 0 ∧
        formatPriceForDisplay (JSNum.num q) = "0") ∧
    (∀ q : ℚ, MAX_PRICE_DISPLAY < q →
        clampPriceForDisplay (JSNum.num q) = MAX_PRICE_DISPLAY ∧
        formatPriceForDisplay (JSNum.num q) = "100,000") ∧
    (∀ v : JSNum, 0 ≤ clampPriceForDisplay v ∧
        clampPriceForDisplay v ≤ MAX_PRICE_DISPLAY) ∧
    (∀ d : CoinMarketDataForAi,
        ("Current price (USD): $" ++ formatPriceForDisplay d.currentPriceUsd) ∈
          formatMarketDataLines d ∧
        ("Market cap (USD): $" ++ formatPriceForDisplay d.marketCap) ∈
          formatMarketDataLines d ∧
        ("24h volume (USD): $" ++ formatPriceForDisplay d.totalVolume) ∈
          formatMarketDataLines d) := by
  refine ⟨fun v => rfl, ⟨rfl, by decide⟩, ?_, ?_, ?_, ?_⟩
  · intro q h
    have hc : clampPriceForDisplay (JSNum.num q) = 0 := by
      simp only [clampPriceForDisplay]
      rw [if_pos h]
    refine ⟨hc, ?_⟩
    unfold formatPriceForDisplay
    rw [hc]
    decide
  · intro q h
    have hc : clampPriceForDisplay (JSNum.num q) = MAX_PRICE_DISPLAY := by
      simp only [clampPriceForDisplay]
      rw [if_neg (by unfold MAX_PRICE_DISPLAY at h; linarith), if_pos h]
    refine ⟨hc, ?_⟩
    unfold formatPriceForDisplay
    rw [hc]
    decide
  · intro v
    cases v with
    | nan => exact ⟨le_refl 0, by norm_num [clampPriceForDisplay, MAX_PRICE_DISPLAY]⟩
    | num q =>
      simp only [clampPriceForDisplay]
      split_ifs with h1 h2
      · exact ⟨le_refl 0, by unfold MAX_PRICE_DISPLAY; norm_num⟩
      · exact ⟨by unfold MAX_PRICE_DISPLAY; norm_num, le_refl _⟩
      · exact ⟨by linarith, by linarith⟩
  · intro d
    refine ⟨?_, ?_, ?_⟩ <;> simp [formatMarketDataLines]

/-- Witness for C9: a negative price renders as `0` and an oversized price as
`100,000`. -/
theorem formatPriceForDisplay_clamp_spec_witness :
    ((-5 : ℚ) < 0 ∧ formatPriceForDisplay (JSNum.num (-5)) = "0") ∧
      (MAX_PRICE_DISPLAY < (Rat.divInt 123456789 1000 : ℚ) ∧
        formatPriceForDisplay (JSNum.num (Rat.divInt 123456789 1000)) = "100,000") :=
  ⟨⟨by norm_num, (formatPriceForDisplay_clamp_spec.2.2.1 (-5) (by norm_num)).2⟩,
    ⟨by decide,
      (formatPriceForDisplay_clamp_spec.2.2.2.1 (Rat.divInt 123456789 1000)
        (by decide)).2⟩⟩

end Cryptonite
